import Mathlib

/-!
Verification of the BrandCanvas timeline/media-synchronization subsystem.

Shallow embedding of `src/components/canvas/CanvasTimeline.tsx`,
`src/components/canvas/ShapeEditor.tsx` and `src/stores/CanvasStore.ts`.

Modelling conventions:
* Times, durations and pixel quantities are rationals (`ℚ`); the browser's
  `NaN` duration (metadata not yet loaded) is modelled by `Option ℚ` with
  `none` standing for `NaN`, since `isNaN` is the only float-specific test
  the code performs on durations.
* JavaScript reference identity (`===` on objects) is modelled by a numeric
  `ref` tag carried by each media object.
* A video thumbnail is represented by the time it was captured at; an audio
  waveform bar is represented by its segment index.  The JPEG/SVG payloads
  (sinusoidal bar heights, hues) are presentational and involve
  transcendental functions, and no claim depends on them.
* Calls made on the underlying `HTMLMediaElement`s (`play()` / `pause()`)
  are recorded both by their effect on the element's `paused` flag and in
  an explicit call log, so that "track X receives the call" is statable.
* `useRef` handles that may be `null` (`scrollAreaRef`, `timelineRef`,
  the `canvas` prop) are modelled by `Bool` parameters.
-/

namespace BrandCanvas

/-- An `HTMLMediaElement` (video or audio) as the timeline code observes it:
`currentTime`, `duration` (with `none` modelling `NaN`), `paused`, `muted`. -/
structure MediaElement where
  currentTime : ℚ
  duration : Option ℚ
  paused : Bool
  muted : Bool
deriving Repr, DecidableEq

/-- The fabric.js object flags touched by `toggleTrackLock` (CanvasTimeline)
and `toggleLock` (ShapeEditor). -/
structure FabricProps where
  selectable : Bool
  evented : Bool
  lockMovementX : Bool
  lockMovementY : Bool
  lockRotation : Bool
  lockScalingX : Bool
  lockScalingY : Bool
  visible : Bool
deriving Repr, DecidableEq

/-- A canvas media object (`VideoObject` / `AudioObject` in the source):
a fabric object extended with an optional `mediaElement`, an optional `id`,
an optional `data.name`, and an optional source `file` (only its presence
matters to the code paths modelled here). -/
structure MediaObject where
  id : Option String
  ref : ℕ
  name : Option String
  mediaElement : Option MediaElement
  hasFile : Bool
  fabric : FabricProps
deriving Repr, DecidableEq

/-- A `VideoTrack` record (CanvasTimeline.tsx, lines 54-62).
A thumbnail is represented by its capture time. -/
structure VideoTrack where
  id : String
  mediaObject : MediaObject
  name : String
  duration : ℚ
  isVisible : Bool
  isLocked : Bool
  thumbnails : List ℚ
deriving Repr, DecidableEq

/-- An `AudioTrack` record (CanvasTimeline.tsx, lines 64-73).
A waveform bar is represented by its segment index. -/
structure AudioTrack where
  id : String
  mediaObject : MediaObject
  name : String
  duration : ℚ
  isVisible : Bool
  isLocked : Bool
  isMuted : Bool
  waveform : List ℕ
deriving Repr, DecidableEq

/-- The React state of the `CanvasTimeline` component that the modelled
operations read or write. -/
structure TimelineState where
  isPlaying : Bool
  currentTime : ℚ
  duration : ℚ
  videoTracks : List VideoTrack
  audioTracks : List AudioTrack
  scale : ℚ
  scrollLeft : ℚ
  isAutoScroll : Bool
  viewportWidth : ℚ
deriving Repr, DecidableEq

/-- `isNaN(element.duration) ? 0 : element.duration`
(CanvasTimeline.tsx lines 229 and 272). -/
def normalizeDuration : Option ℚ → ℚ
  | none => 0
  | some d => d

/-- `Math.max(...)` over a list, as applied to the track duration list;
the code guards the call with a nonemptiness check, so the `[]` case is
arbitrary (we use 0). -/
def listMax : List ℚ → ℚ
  | [] => 0
  | x :: xs => xs.foldl max x

/-- The play/pause calls issued on media elements. -/
inductive MediaCall where
  | play
  | pause
deriving Repr, DecidableEq

/-- Effect of `play()` / `pause()` on the element's `paused` flag. -/
def applyCall (c : MediaCall) (el : MediaElement) : MediaElement :=
  match c with
  | .play => { el with paused := false }
  | .pause => { el with paused := true }

/-- Apply a play/pause call to a video track's media element, when present
(the `if (track.mediaObject.mediaElement)` guard in the source). -/
def callVideoTrack (c : MediaCall) (t : VideoTrack) : VideoTrack :=
  match t.mediaObject.mediaElement with
  | none => t
  | some el =>
      { t with mediaObject := { t.mediaObject with mediaElement := some (applyCall c el) } }

/-- Apply a play/pause call to an audio track's media element, when present. -/
def callAudioTrack (c : MediaCall) (t : AudioTrack) : AudioTrack :=
  match t.mediaObject.mediaElement with
  | none => t
  | some el =>
      { t with mediaObject := { t.mediaObject with mediaElement := some (applyCall c el) } }

/-- The log of element calls a `forEach` over video tracks issues: one call
per track whose `mediaElement` is present. -/
def videoCallLog (c : MediaCall) (ts : List VideoTrack) : List (String × MediaCall) :=
  ts.filterMap fun t =>
    if t.mediaObject.mediaElement.isSome then some (t.id, c) else none

/-- The log of element calls a `forEach` over audio tracks issues. -/
def audioCallLog (c : MediaCall) (ts : List AudioTrack) : List (String × MediaCall) :=
  ts.filterMap fun t =>
    if t.mediaObject.mediaElement.isSome then some (t.id, c) else none

/-- Write `element.currentTime = time` on a video track's element, when
present (the body of the `forEach` in `seekToTime`). -/
def seekVideoTrack (time : ℚ) (t : VideoTrack) : VideoTrack :=
  match t.mediaObject.mediaElement with
  | none => t
  | some el =>
      { t with mediaObject :=
          { t.mediaObject with mediaElement := some { el with currentTime := time } } }

/-- Write `element.currentTime = time` on an audio track's element. -/
def seekAudioTrack (time : ℚ) (t : AudioTrack) : AudioTrack :=
  match t.mediaObject.mediaElement with
  | none => t
  | some el =>
      { t with mediaObject :=
          { t.mediaObject with mediaElement := some { el with currentTime := time } } }

/-- `seekToTime` (CanvasTimeline.tsx lines 791-807): sets the `currentTime`
state to the requested time and writes that time to every track's media
element.  (The source performs no clamping.) -/
def seekToTime (s : TimelineState) (time : ℚ) : TimelineState :=
  { s with
      currentTime := time
      videoTracks := s.videoTracks.map (seekVideoTrack time)
      audioTracks := s.audioTracks.map (seekAudioTrack time) }

/-- `handleTimelineClick` (CanvasTimeline.tsx lines 810-821): converts the
click x offset plus the scroll offset to a time at the current scale and
seeks there.  `hasTimeline` models the `timelineRef.current` null guard;
`s.scrollLeft` models `scrollPositionRef.current`. -/
def handleTimelineClick (s : TimelineState) (hasTimeline : Bool) (clickX : ℚ) : TimelineState :=
  if hasTimeline then seekToTime s ((clickX + s.scrollLeft) / s.scale) else s

/-- `zoomIn`'s scale update (line 825): `min(prevScale * 1.5, 200)`. -/
def zoomInScale (scale : ℚ) : ℚ :=
  min (scale * (3 / 2)) 200

/-- `zoomOut`'s scale update (line 829): `max(prevScale / 1.5, 5)`. -/
def zoomOutScale (scale : ℚ) : ℚ :=
  max (scale / (3 / 2)) 5

/-- `zoomIn` (CanvasTimeline.tsx lines 824-826). -/
def zoomIn (s : TimelineState) : TimelineState :=
  { s with scale := zoomInScale s.scale }

/-- `zoomOut` (CanvasTimeline.tsx lines 828-830). -/
def zoomOut (s : TimelineState) : TimelineState :=
  { s with scale := zoomOutScale s.scale }

/-- `zoomToFit` (CanvasTimeline.tsx lines 833-846): no-op when the scroll
area is absent or `duration <= 0`; otherwise sets the scale to
`max(5, (clientWidth - 40) / duration)` (no upper clamp) and resets the
scroll position to 0. -/
def zoomToFit (s : TimelineState) (hasScrollArea : Bool) (clientWidth : ℚ) : TimelineState :=
  if !hasScrollArea || s.duration ≤ 0 then s
  else
    { s with
        scale := max 5 ((clientWidth - 40) / s.duration)
        scrollLeft := 0 }

/-- The track-matching predicate of the scanner (lines 225-228 / 268-271):
`(obj.id && t.mediaObject.id === obj.id) || t.mediaObject === obj`.
A falsy (absent) id is `none`; reference equality is the `ref` tag. -/
def matchesVideo (obj : MediaObject) (t : VideoTrack) : Bool :=
  (match obj.id with
   | some i => t.mediaObject.id == some i
   | none => false) || t.mediaObject.ref == obj.ref

/-- The track-matching predicate for audio tracks. -/
def matchesAudio (obj : MediaObject) (t : AudioTrack) : Bool :=
  (match obj.id with
   | some i => t.mediaObject.id == some i
   | none => false) || t.mediaObject.ref == obj.ref

/-- The `forEach` body of the video-track scan (lines 220-253): skip objects
without a media element; update a matching previous track in place (keeping
its id, visibility, lock state and thumbnails) or create a fresh track.
`freshId k` models the `Date.now()`-and-random id generated for the k-th
scanned object. -/
def scanVideoTracksFrom (freshId : ℕ → String) (prev : List VideoTrack) :
    List MediaObject → ℕ → List VideoTrack
  | [], _ => []
  | obj :: rest, k =>
      match obj.mediaElement with
      | none => scanVideoTracksFrom freshId prev rest (k + 1)
      | some el =>
          let videoDuration := normalizeDuration el.duration
          let track :=
            match prev.find? (fun t => matchesVideo obj t) with
            | some existing => { existing with duration := videoDuration, mediaObject := obj }
            | none =>
                { id := freshId k
                  mediaObject := obj
                  name := obj.name.getD "Unnamed Video"
                  duration := videoDuration
                  isVisible := true
                  isLocked := false
                  thumbnails := [] }
          track :: scanVideoTracksFrom freshId prev rest (k + 1)

/-- The video-track scan applied to the full object list. -/
def scanVideoTracks (freshId : ℕ → String) (prev : List VideoTrack)
    (objs : List MediaObject) : List VideoTrack :=
  scanVideoTracksFrom freshId prev objs 0

/-- The `forEach` body of the audio-track scan (lines 263-297). -/
def scanAudioTracksFrom (freshId : ℕ → String) (prev : List AudioTrack) :
    List MediaObject → ℕ → List AudioTrack
  | [], _ => []
  | obj :: rest, k =>
      match obj.mediaElement with
      | none => scanAudioTracksFrom freshId prev rest (k + 1)
      | some el =>
          let audioDuration := normalizeDuration el.duration
          let track :=
            match prev.find? (fun t => matchesAudio obj t) with
            | some existing => { existing with duration := audioDuration, mediaObject := obj }
            | none =>
                { id := freshId k
                  mediaObject := obj
                  name := obj.name.getD "Unnamed Audio"
                  duration := audioDuration
                  isVisible := true
                  isLocked := false
                  isMuted := false
                  waveform := [] }
          track :: scanAudioTracksFrom freshId prev rest (k + 1)

/-- The audio-track scan applied to the full object list. -/
def scanAudioTracks (freshId : ℕ → String) (prev : List AudioTrack)
    (objs : List MediaObject) : List AudioTrack :=
  scanAudioTracksFrom freshId prev objs 0

/-- `updateMediaObjects` (CanvasTimeline.tsx lines 198-310): re-derive the
video and audio track lists from the canvas object list, then update the
overall duration.  Crucially, the duration update (lines 301-309) reads
`videoTracks` and `audioTracks` from the enclosing closure — the state as it
was BEFORE the scan, not the freshly computed lists — and only fires when
that stale list is nonempty and its maximum duration is positive. -/
def updateMediaObjects (freshVid freshAud : ℕ → String) (s : TimelineState)
    (videoObjs audioObjs : List MediaObject) : TimelineState :=
  let newVideoTracks := scanVideoTracks freshVid s.videoTracks videoObjs
  let newAudioTracks := scanAudioTracks freshAud s.audioTracks audioObjs
  let staleDurations :=
    s.videoTracks.map VideoTrack.duration ++ s.audioTracks.map AudioTrack.duration
  let newDuration :=
    if staleDurations.length > 0 then
      let maxDuration := listMax staleDurations
      if maxDuration > 0 then maxDuration else s.duration
    else s.duration
  { s with
      videoTracks := newVideoTracks
      audioTracks := newAudioTracks
      duration := newDuration }

/-- `togglePlayback` (CanvasTimeline.tsx lines 738-763): flips the playing
state and invokes `play()` (when now playing) or `pause()` (when now
paused) on every video and audio track's media element — with no check of
`isVisible` or `isLocked`.  Returns the new state and the call log. -/
def togglePlayback (s : TimelineState) : TimelineState × List (String × MediaCall) :=
  let newIsPlaying := !s.isPlaying
  let call := if newIsPlaying then MediaCall.play else MediaCall.pause
  ({ s with
       isPlaying := newIsPlaying
       videoTracks := s.videoTracks.map (callVideoTrack call)
       audioTracks := s.audioTracks.map (callAudioTrack call) },
   videoCallLog call s.videoTracks ++ audioCallLog call s.audioTracks)

/-- One step of the element-polling fold in `updatePlayback`
(lines 635-648): `if (track.mediaObject.mediaElement?.currentTime)` is a
truthiness test, so an absent element or one at time 0 is skipped;
otherwise the accumulator takes the max and `hasActiveMedia` is set. -/
def pollStep (acc : ℚ × Bool) (el : Option MediaElement) : ℚ × Bool :=
  match el with
  | none => acc
  | some e => if e.currentTime ≠ 0 then (max acc.1 e.currentTime, true) else acc

/-- The media elements of all tracks, video first then audio, in scan
order (the order the two `for` loops of `updatePlayback` visit them). -/
def trackElements (s : TimelineState) : List (Option MediaElement) :=
  s.videoTracks.map (fun t => t.mediaObject.mediaElement)
    ++ s.audioTracks.map (fun t => t.mediaObject.mediaElement)

/-- The `currentTime`s of the tracks' present media elements. -/
def elementTimes (s : TimelineState) : List ℚ :=
  (trackElements s).filterMap (fun e => e.map MediaElement.currentTime)

/-- The result of one animation-frame callback: the new state, the element
calls issued, and whether another frame was requested. -/
structure PlaybackStep where
  state : TimelineState
  calls : List (String × MediaCall)
  continues : Bool
deriving Repr, DecidableEq

/-- `updatePlayback` (CanvasTimeline.tsx lines 625-698), one frame:
poll every track's element time (skipping absent elements and time 0),
take the running max as `maxCurrentTime`; set `currentTime` to it only when
some element was active; auto-scroll toward the playhead when enabled and
the playhead leaves the 20% buffer zone; then, if `maxCurrentTime` has
reached `duration`, stop playback and pause every element, else request the
next frame.  (`deltaTime` is computed in the source but never used.)
`hasScrollArea` models the `scrollAreaRef.current` null guard and
`s.scrollLeft` models `scrollPositionRef.current`. -/
def updatePlayback (s : TimelineState) (hasScrollArea : Bool) : PlaybackStep :=
  let polled := (trackElements s).foldl pollStep (0, false)
  let maxCurrentTime := polled.1
  let hasActiveMedia := polled.2
  let s1 := if hasActiveMedia then { s with currentTime := maxCurrentTime } else s
  let s2 :=
    if s.isAutoScroll && hasScrollArea then
      let timePosition := maxCurrentTime * s.scale
      let bufferZone := s.viewportWidth * (1 / 5)
      if timePosition > s.scrollLeft + s.viewportWidth - bufferZone
          ∨ timePosition < s.scrollLeft + bufferZone then
        { s1 with scrollLeft := timePosition - s.viewportWidth / 2 }
      else s1
    else s1
  if maxCurrentTime ≥ s.duration then
    { state :=
        { s2 with
            isPlaying := false
            videoTracks := s2.videoTracks.map (callVideoTrack .pause)
            audioTracks := s2.audioTracks.map (callAudioTrack .pause) }
      calls := videoCallLog .pause s2.videoTracks ++ audioCallLog .pause s2.audioTracks
      continues := false }
  else
    { state := s2, calls := [], continues := s.isPlaying }

/-- The thumbnail count of `generateVideoThumbnails` (line 397):
`Math.max(5, Math.ceil(track.duration / 2))`. -/
def numThumbnails (d : ℚ) : ℕ :=
  max 5 (Int.toNat ⌈d / 2⌉)

/-- The capture times of the thumbnail loop (lines 414-415): for `i` in
`[0, numThumbnails)`, `(i / (numThumbnails - 1)) * duration`. -/
def thumbnailTimes (d : ℚ) : List ℚ :=
  (List.range (numThumbnails d)).map
    (fun i : ℕ => ((i : ℚ) / ((numThumbnails d : ℚ) - 1)) * d)

/-- `generateVideoThumbnails` (CanvasTimeline.tsx lines 382-467): no-op
when the track has no media element or when another generation pass is
running (the request is deferred, modelled as unchanged).  On a successful
pass the track's thumbnails become the captured frames (one per loop
iteration, at `thumbnailTimes`) and the element's position is restored; if
any step throws (canvas context unavailable, seek `error` event), the
`catch` only logs — the track keeps its previous (possibly empty)
thumbnails, there is no fallback for video. -/
def generateVideoThumbnails (generating : Bool) (t : VideoTrack) (ok : Bool) : VideoTrack :=
  if generating then t
  else
    match t.mediaObject.mediaElement with
    | none => t
    | some _ =>
        if ok then { t with thumbnails := thumbnailTimes t.duration } else t

/-- The waveform segment count (lines 504 and 575):
`Math.max(150, Math.ceil(track.duration * 15))`. -/
def numWaveformSamples (d : ℚ) : ℕ :=
  max 150 (Int.toNat ⌈d * 15⌉)

/-- `createStylizedWaveform` (lines 574-618): a purely synthetic waveform
with `numWaveformSamples` bars (bars represented by index; the sinusoidal
bar heights are presentational). -/
def stylizedWaveform (d : ℚ) : List ℕ :=
  List.range (numWaveformSamples d)

/-- `createStylizedWaveform` applied to a track: substitutes the synthetic
waveform. -/
def createStylizedWaveform (t : AudioTrack) : AudioTrack :=
  { t with waveform := stylizedWaveform t.duration }

/-- `generateAudioWaveform` (CanvasTimeline.tsx lines 470-571): no-op when
the track has no media element or a pass is already running (deferred,
modelled as unchanged).  Without a source file, or when decoding throws
(`decodeOk = false`), the stylized fallback is substituted; on a successful
decode the track gets `numWaveformSamples` bars computed from the PCM data
(bars represented by index). -/
def generateAudioWaveform (generating : Bool) (t : AudioTrack) (decodeOk : Bool) : AudioTrack :=
  if generating then t
  else
    match t.mediaObject.mediaElement with
    | none => t
    | some _ =>
        if !t.mediaObject.hasFile then createStylizedWaveform t
        else if decodeOk then { t with waveform := List.range (numWaveformSamples t.duration) }
        else createStylizedWaveform t

/-- The per-track body of `toggleTrackLock` (lines 933-944 / 953-964):
flip `isLocked`; when the canvas is present, also set the object's
`selectable` and `evented` to the negation of the new lock state.  The
movement / rotation / scaling lock flags are not touched. -/
def lockVideoTrack (hasCanvas : Bool) (t : VideoTrack) : VideoTrack :=
  let newIsLocked := !t.isLocked
  if hasCanvas then
    { t with
        isLocked := newIsLocked
        mediaObject :=
          { t.mediaObject with fabric :=
              { t.mediaObject.fabric with
                  selectable := !newIsLocked
                  evented := !newIsLocked } } }
  else { t with isLocked := newIsLocked }

/-- The per-track body of `toggleTrackLock` for audio tracks. -/
def lockAudioTrack (hasCanvas : Bool) (t : AudioTrack) : AudioTrack :=
  let newIsLocked := !t.isLocked
  if hasCanvas then
    { t with
        isLocked := newIsLocked
        mediaObject :=
          { t.mediaObject with fabric :=
              { t.mediaObject.fabric with
                  selectable := !newIsLocked
                  evented := !newIsLocked } } }
  else { t with isLocked := newIsLocked }

/-- `toggleTrackLock` (CanvasTimeline.tsx lines 928-967): look the id up
among the video tracks first, then the audio tracks, and map the matching
track through the lock toggle. -/
def toggleTrackLock (s : TimelineState) (hasCanvas : Bool) (trackId : String) : TimelineState :=
  if (s.videoTracks.find? (fun t => t.id == trackId)).isSome then
    { s with videoTracks :=
        s.videoTracks.map (fun t => if t.id == trackId then lockVideoTrack hasCanvas t else t) }
  else if (s.audioTracks.find? (fun t => t.id == trackId)).isSome then
    { s with audioTracks :=
        s.audioTracks.map (fun t => if t.id == trackId then lockAudioTrack hasCanvas t else t) }
  else s

/-- `toggleLock` (ShapeEditor.tsx lines 281-290): invert the selected
object's movement, rotation and scaling lock flags. -/
def toggleLock (o : FabricProps) : FabricProps :=
  { o with
      lockMovementX := !o.lockMovementX
      lockMovementY := !o.lockMovementY
      lockRotation := !o.lockRotation
      lockScalingX := !o.lockScalingX
      lockScalingY := !o.lockScalingY }

/-- The state of `CanvasStore` (src/stores/CanvasStore.ts): the object map
(modelled as an id/type association list), the selection, and the
full-snapshot history with its current index.  `σ` is the snapshot type. -/
structure CanvasStoreState (σ : Type) where
  objects : List (String × String)
  selectedObjectId : Option String
  history : List σ
  currentHistoryIndex : ℤ
deriving Repr, DecidableEq

/-- `createCanvasStore` (CanvasStore.ts lines 70-74). -/
def createCanvasStore (σ : Type) : CanvasStoreState σ :=
  { objects := [], selectedObjectId := none, history := [], currentHistoryIndex := -1 }

/-- `addObject` (lines 24-31): register a fresh id/type pair.  The random
id is passed in. -/
def addObject (s : CanvasStoreState σ) (id ty : String) : CanvasStoreState σ :=
  { s with objects := s.objects ++ [(id, ty)] }

/-- `removeObject` (lines 32-37): destroy the object with the given id. -/
def removeObject (s : CanvasStoreState σ) (id : String) : CanvasStoreState σ :=
  { s with objects := s.objects.filter (fun o => o.1 ≠ id) }

/-- `setSelectedObject` (lines 38-40). -/
def setSelectedObject (s : CanvasStoreState σ) (id : Option String) : CanvasStoreState σ :=
  { s with selectedObjectId := id }

/-- `addToHistory` (CanvasStore.ts lines 41-47): truncate the entries past
the current index (`history.slice(0, currentHistoryIndex + 1)`), append the
new snapshot, and advance the index. -/
def addToHistory (s : CanvasStoreState σ) (snapshot : σ) : CanvasStoreState σ :=
  { s with
      history := s.history.take (s.currentHistoryIndex + 1).toNat ++ [snapshot]
      currentHistoryIndex := s.currentHistoryIndex + 1 }

/-- `undo` (CanvasStore.ts lines 48-52): decrement the index only when it
is greater than 0. -/
def undo (s : CanvasStoreState σ) : CanvasStoreState σ :=
  if s.currentHistoryIndex > 0 then
    { s with currentHistoryIndex := s.currentHistoryIndex - 1 }
  else s

/-- `redo` (CanvasStore.ts lines 53-57): increment the index only when it
is less than `history.length - 1`. -/
def redo (s : CanvasStoreState σ) : CanvasStoreState σ :=
  if s.currentHistoryIndex < (s.history.length : ℤ) - 1 then
    { s with currentHistoryIndex := s.currentHistoryIndex + 1 }
  else s

/-- `cleanup` (CanvasStore.ts lines 58-64): clear everything and reset the
index to -1. -/
def cleanup (s : CanvasStoreState σ) : CanvasStoreState σ :=
  { s with
      objects := []
      selectedObjectId := none
      history := []
      currentHistoryIndex := -1 }

/-- The history invariant of the store:
`-1 ≤ currentHistoryIndex ≤ history.length - 1`. -/
def historyInv (s : CanvasStoreState σ) : Prop :=
  -1 ≤ s.currentHistoryIndex ∧ s.currentHistoryIndex ≤ (s.history.length : ℤ) - 1

instance (σ : Type) (s : CanvasStoreState σ) : Decidable (historyInv s) := by
  unfold historyInv
  infer_instance

/-! ### Concrete fixtures used by counterexamples and witnesses -/

/-- A fabric object in its default state (selectable, evented, nothing
locked, visible). -/
def sampleFabric : FabricProps :=
  { selectable := true, evented := true, lockMovementX := false, lockMovementY := false,
    lockRotation := false, lockScalingX := false, lockScalingY := false, visible := true }

/-- A media element positioned at a given time with a given raw duration. -/
def sampleElement (t : ℚ) (d : Option ℚ) : MediaElement :=
  { currentTime := t, duration := d, paused := true, muted := false }

/-- A canvas media object with the given reference tag and element. -/
def sampleObject (r : ℕ) (el : Option MediaElement) : MediaObject :=
  { id := some (String.append "obj" (toString r)), ref := r, name := some "clip",
    mediaElement := el, hasFile := true, fabric := sampleFabric }

/-- A video track over a given object with a given duration. -/
def sampleVideoTrack (id : String) (obj : MediaObject) (d : ℚ) : VideoTrack :=
  { id := id, mediaObject := obj, name := "clip", duration := d,
    isVisible := true, isLocked := false, thumbnails := [] }

/-- An audio track over a given object with a given duration. -/
def sampleAudioTrack (id : String) (obj : MediaObject) (d : ℚ) : AudioTrack :=
  { id := id, mediaObject := obj, name := "clip", duration := d,
    isVisible := true, isLocked := false, isMuted := false, waveform := [] }

/-- A timeline state holding the given tracks, duration 10, scale 20. -/
def sampleState (vts : List VideoTrack) (ats : List AudioTrack) : TimelineState :=
  { isPlaying := false, currentTime := 0, duration := 10, videoTracks := vts,
    audioTracks := ats, scale := 20, scrollLeft := 0, isAutoScroll := false,
    viewportWidth := 500 }

/-! ## C1: seeking and clamping -/

/-- The state used by the C1 counterexample: one video track of duration
10, element present. -/
def cexSeekState : TimelineState :=
  sampleState [sampleVideoTrack "v1" (sampleObject 1 (some (sampleElement 0 (some 10)))) 10] []

/-- C1 counterexample: seeking to time 11 on a timeline of duration 10
leaves `currentTime = 11`, outside `[0, duration]`, and writes the
unclamped 11 to the registered media element — `seekToTime` performs no
clamping. -/
theorem seekToTime_not_clamped_cex :
    (seekToTime cexSeekState 11).currentTime = 11 ∧
    (seekToTime cexSeekState 11).duration = 10 ∧
    ¬ (seekToTime cexSeekState 11).currentTime ≤ (seekToTime cexSeekState 11).duration ∧
    ((seekToTime cexSeekState 11).videoTracks.map
      fun t => t.mediaObject.mediaElement.map MediaElement.currentTime) = [some 11] := by
  simp [cexSeekState, seekToTime, sampleState, sampleVideoTrack, sampleObject,
    sampleElement, seekVideoTrack]
  norm_num

/-- C1 amended: `seekToTime(time)` stores the requested time unclamped as
the transport's `currentTime` (so a seek past the end or before the start
leaves `currentTime` outside `[0, duration]`), leaves `duration` unchanged,
and writes the same unclamped time to every registered media element;
`handleTimelineClick` converts the click position to the unclamped time
`(x + scrollLeft) / scale` and seeks there. -/
theorem seekToTime_passthrough (s : TimelineState) (time clickX : ℚ) :
    (seekToTime s time).currentTime = time
    ∧ (seekToTime s time).duration = s.duration
    ∧ (∀ t ∈ (seekToTime s time).videoTracks, ∀ el,
        t.mediaObject.mediaElement = some el → el.currentTime = time)
    ∧ (∀ t ∈ (seekToTime s time).audioTracks, ∀ el,
        t.mediaObject.mediaElement = some el → el.currentTime = time)
    ∧ (handleTimelineClick s true clickX).currentTime = (clickX + s.scrollLeft) / s.scale := by
  refine ⟨rfl, rfl, ?_, ?_, ?_⟩
  · intro t ht el hel
    simp only [seekToTime, List.mem_map] at ht
    obtain ⟨t0, -, rfl⟩ := ht
    cases h0 : t0.mediaObject.mediaElement with
    | none => simp [seekVideoTrack, h0] at hel
    | some el0 =>
        simp [seekVideoTrack, h0] at hel
        simp [← hel]
  · intro t ht el hel
    simp only [seekToTime, List.mem_map] at ht
    obtain ⟨t0, -, rfl⟩ := ht
    cases h0 : t0.mediaObject.mediaElement with
    | none => simp [seekAudioTrack, h0] at hel
    | some el0 =>
        simp [seekAudioTrack, h0] at hel
        simp [← hel]
  · simp [handleTimelineClick, seekToTime]

/-- C1 amended, witnessed at a concrete state: a seek to 7 on a
single-track state stores 7 and writes 7 to the track's element. -/
theorem seekToTime_passthrough_witness :
    (seekToTime cexSeekState 7).currentTime = 7
    ∧ (∀ t ∈ (seekToTime cexSeekState 7).videoTracks, ∀ el,
        t.mediaObject.mediaElement = some el → el.currentTime = 7) :=
  ⟨(seekToTime_passthrough cexSeekState 7 0).1,
   (seekToTime_passthrough cexSeekState 7 0).2.2.1⟩

/-! ## C2: overall duration after a re-scan -/

/-- A video object of duration 8 (reference tag 1, id "obj1"). -/
def vObj8 : MediaObject := sampleObject 1 (some (sampleElement 0 (some 8)))

/-- An audio object of duration 12 (reference tag 2, id "obj2"). -/
def aObj12 : MediaObject := sampleObject 2 (some (sampleElement 0 (some 12)))

/-- C2 counterexample: a scan that starts from EMPTY track lists and
discovers a video object of duration 8 and an audio object of duration 12
produces tracks of durations 8 and 12 but leaves the overall duration at
its old value 0, because the duration update reads the closure-captured
(pre-scan) track lists — so after this re-scan the overall duration is not
the maximum of the tracks' durations. -/
theorem updateMediaObjects_fresh_scan_cex :
    ((updateMediaObjects (fun _ => "vt0") (fun _ => "at0")
        { sampleState [] [] with duration := 0 } [vObj8] [aObj12]).videoTracks.map
          VideoTrack.duration) = [8]
    ∧ ((updateMediaObjects (fun _ => "vt0") (fun _ => "at0")
        { sampleState [] [] with duration := 0 } [vObj8] [aObj12]).audioTracks.map
          AudioTrack.duration) = [12]
    ∧ (updateMediaObjects (fun _ => "vt0") (fun _ => "at0")
        { sampleState [] [] with duration := 0 } [vObj8] [aObj12]).duration = 0
    ∧ listMax [8, 12] = 12
    ∧ (updateMediaObjects (fun _ => "vt0") (fun _ => "at0")
        { sampleState [] [] with duration := 0 } [vObj8] [aObj12]).duration ≠ listMax [8, 12] := by
  refine ⟨?_, ?_, ?_, ?_, ?_⟩ <;>
    simp [updateMediaObjects, sampleState, scanVideoTracks, scanAudioTracks,
      scanVideoTracksFrom, scanAudioTracksFrom, vObj8, aObj12, sampleObject,
      sampleElement, normalizeDuration, listMax] <;>
    try norm_num

/-- C2 amended: the scanner computes the overall duration from the track
lists as they were BEFORE the scan: when the pre-scan lists are nonempty
and the maximum of their durations is positive, the overall duration is set
to that maximum, otherwise it is left unchanged.  In particular, for a
state that already holds exactly one video track of duration 8 and one
audio track of duration 12, a re-scan of the same two media objects leaves
the overall duration equal to 12 (the invariant holds at such a fixpoint,
but not for a scan that itself changes the track durations). -/
theorem updateMediaObjects_duration_stale (freshVid freshAud : ℕ → String)
    (s : TimelineState) (videoObjs audioObjs : List MediaObject)
    (hne : s.videoTracks.map VideoTrack.duration ++ s.audioTracks.map AudioTrack.duration ≠ [])
    (hpos : 0 < listMax (s.videoTracks.map VideoTrack.duration
      ++ s.audioTracks.map AudioTrack.duration)) :
    (updateMediaObjects freshVid freshAud s videoObjs audioObjs).duration
      = listMax (s.videoTracks.map VideoTrack.duration
          ++ s.audioTracks.map AudioTrack.duration)
    ∧ (updateMediaObjects (fun _ => "vt0") (fun _ => "at0")
        (sampleState [sampleVideoTrack "v1" vObj8 8] [sampleAudioTrack "a1" aObj12 12])
        [vObj8] [aObj12]).duration = 12 := by
  constructor
  · have hlen : 0 < (s.videoTracks.map VideoTrack.duration
        ++ s.audioTracks.map AudioTrack.duration).length := List.length_pos.mpr hne
    simp only [updateMediaObjects]
    rw [if_pos hlen, if_pos hpos]
  · simp [updateMediaObjects, sampleState, sampleVideoTrack, sampleAudioTrack,
      vObj8, aObj12, sampleObject, sampleElement, listMax]
    norm_num

/-- C2 amended, witnessed at a concrete state: re-scanning a state that
already holds the 8-second video track and the 12-second audio track
yields overall duration `listMax [8, 12] = 12`. -/
theorem updateMediaObjects_duration_stale_witness :
    (updateMediaObjects (fun _ => "vt0") (fun _ => "at0")
        (sampleState [sampleVideoTrack "v1" vObj8 8] [sampleAudioTrack "a1" aObj12 12])
        [vObj8] [aObj12]).duration
      = listMax ((sampleState [sampleVideoTrack "v1" vObj8 8]
          [sampleAudioTrack "a1" aObj12 12]).videoTracks.map VideoTrack.duration
        ++ (sampleState [sampleVideoTrack "v1" vObj8 8]
          [sampleAudioTrack "a1" aObj12 12]).audioTracks.map AudioTrack.duration) := by
  have h := updateMediaObjects_duration_stale (fun _ => "vt0") (fun _ => "at0")
    (sampleState [sampleVideoTrack "v1" vObj8 8] [sampleAudioTrack "a1" aObj12 12])
    [vObj8] [aObj12]
    (by simp [sampleState, sampleVideoTrack, sampleAudioTrack])
    (by simp [sampleState, sampleVideoTrack, sampleAudioTrack, listMax])
  exact h.1

/-! ## C3: togglePlayback and track visibility -/

/-- The state used by the C3 counterexample: one HIDDEN video track whose
element is paused, playback currently stopped. -/
def cexToggleState : TimelineState :=
  sampleState
    [{ sampleVideoTrack "v1" (sampleObject 1 (some (sampleElement 0 (some 10)))) 10 with
        isVisible := false }] []

/-- C3 counterexample: toggling playback on a state whose only track has
`isVisible = false` still issues `play()` on that track's media element
(the call log contains it and the element's `paused` flag flips to false) —
`togglePlayback` never consults `isVisible`. -/
theorem togglePlayback_invisible_cex :
    (cexToggleState.videoTracks.map VideoTrack.isVisible) = [false]
    ∧ (togglePlayback cexToggleState).2 = [("v1", MediaCall.play)]
    ∧ ((togglePlayback cexToggleState).1.videoTracks.map
        fun t => t.mediaObject.mediaElement.map MediaElement.paused) = [some false] := by
  refine ⟨?_, ?_, ?_⟩ <;>
    simp [cexToggleState, togglePlayback, sampleState, sampleVideoTrack, sampleObject,
      sampleElement, videoCallLog, audioCallLog, callVideoTrack, applyCall]

/-- C3 amended: `togglePlayback()` flips the playing state and invokes
`play()` (when the new state is playing) or `pause()` (when it is paused)
on EVERY track's media element, whether or not the track's `isVisible` is
true: every track with a media element, video or audio, appears in the call
log, and every element's `paused` flag becomes the old playing state. -/
theorem togglePlayback_all_tracks (s : TimelineState) :
    (togglePlayback s).1.isPlaying = !s.isPlaying
    ∧ (∀ t ∈ s.videoTracks, t.mediaObject.mediaElement.isSome →
        (t.id, if s.isPlaying then MediaCall.pause else MediaCall.play)
          ∈ (togglePlayback s).2)
    ∧ (∀ t ∈ s.audioTracks, t.mediaObject.mediaElement.isSome →
        (t.id, if s.isPlaying then MediaCall.pause else MediaCall.play)
          ∈ (togglePlayback s).2)
    ∧ (∀ t ∈ (togglePlayback s).1.videoTracks, ∀ el,
        t.mediaObject.mediaElement = some el → el.paused = s.isPlaying)
    ∧ (∀ t ∈ (togglePlayback s).1.audioTracks, ∀ el,
        t.mediaObject.mediaElement = some el → el.paused = s.isPlaying) := by
  have hcall : (if s.isPlaying then MediaCall.pause else MediaCall.play)
      = (if !s.isPlaying then MediaCall.play else MediaCall.pause) := by
    cases s.isPlaying <;> rfl
  refine ⟨rfl, ?_, ?_, ?_, ?_⟩
  · intro t ht hel
    simp only [togglePlayback, List.mem_append]
    left
    simp only [videoCallLog, List.mem_filterMap]
    exact ⟨t, ht, by rw [hcall]; simp [hel]⟩
  · intro t ht hel
    simp only [togglePlayback, List.mem_append]
    right
    simp only [audioCallLog, List.mem_filterMap]
    exact ⟨t, ht, by rw [hcall]; simp [hel]⟩
  · intro t ht el hel
    simp only [togglePlayback, List.mem_map] at ht
    obtain ⟨t0, -, rfl⟩ := ht
    cases h0 : t0.mediaObject.mediaElement with
    | none => simp [callVideoTrack, h0] at hel
    | some el0 =>
        simp [callVideoTrack, h0] at hel
        rw [← hel]
        cases h1 : s.isPlaying <;> simp [applyCall, h1]
  · intro t ht el hel
    simp only [togglePlayback, List.mem_map] at ht
    obtain ⟨t0, -, rfl⟩ := ht
    cases h0 : t0.mediaObject.mediaElement with
    | none => simp [callAudioTrack, h0] at hel
    | some el0 =>
        simp [callAudioTrack, h0] at hel
        rw [← hel]
        cases h1 : s.isPlaying <;> simp [applyCall, h1]

/-- C3 amended, witnessed at a concrete state: the hidden track of
`cexToggleState` appears in the call log and playback flips to playing. -/
theorem togglePlayback_all_tracks_witness :
    (togglePlayback cexToggleState).1.isPlaying = !cexToggleState.isPlaying
    ∧ (∀ t ∈ cexToggleState.videoTracks, t.mediaObject.mediaElement.isSome →
        (t.id, if cexToggleState.isPlaying then MediaCall.pause else MediaCall.play)
          ∈ (togglePlayback cexToggleState).2) :=
  ⟨(togglePlayback_all_tracks cexToggleState).1,
   (togglePlayback_all_tracks cexToggleState).2.1⟩

/-! ## C4: the per-frame playback update -/

/-- Whether a polled element entry passes the truthiness test of
`if (element?.currentTime)`: it is present and its time is nonzero. -/
def activeEl : Option MediaElement → Bool
  | none => false
  | some el => decide (el.currentTime ≠ 0)

/-- When every element time is nonnegative and the accumulator starts
nonnegative, the element-polling fold computes the max of the present
element times over the initial accumulator (skipping the zeros does not
matter, because a zero cannot raise a nonnegative running max). -/
theorem pollStep_foldl_fst : ∀ (l : List (Option MediaElement)) (acc : ℚ × Bool),
    (∀ q ∈ l.filterMap (fun e => e.map MediaElement.currentTime), 0 ≤ q) →
    0 ≤ acc.1 →
    (l.foldl pollStep acc).1
      = (l.filterMap (fun e => e.map MediaElement.currentTime)).foldl max acc.1
  | [], _, _, _ => rfl
  | none :: rest, acc, h0, ha => by
      have h0' : ∀ q ∈ rest.filterMap (fun e => e.map MediaElement.currentTime), 0 ≤ q := by
        simpa using h0
      simpa [pollStep] using pollStep_foldl_fst rest acc h0' ha
  | some el :: rest, acc, h0, ha => by
      have hc : 0 ≤ el.currentTime := h0 el.currentTime (by simp)
      have h0' : ∀ q ∈ rest.filterMap (fun e => e.map MediaElement.currentTime), 0 ≤ q := by
        intro q hq
        exact h0 q (by simp [hq])
      by_cases h : el.currentTime = 0
      · have h1 : pollStep acc (some el) = acc := by simp [pollStep, h]
        rw [List.foldl_cons, h1, List.filterMap_cons]
        simp only [Option.map_some']
        rw [List.foldl_cons, h, max_eq_left ha]
        exact pollStep_foldl_fst rest acc h0' ha
      · have h1 : pollStep acc (some el) = (max acc.1 el.currentTime, true) := by
          simp [pollStep, h]
        rw [List.foldl_cons, h1, List.filterMap_cons]
        simp only [Option.map_some']
        rw [List.foldl_cons]
        exact pollStep_foldl_fst rest (max acc.1 el.currentTime, true) h0'
          (le_trans ha (le_max_left acc.1 el.currentTime))

/-- The `hasActiveMedia` flag of the element-polling fold is set exactly
when the accumulator's flag was already set or some entry passes the
truthiness test. -/
theorem pollStep_foldl_snd : ∀ (l : List (Option MediaElement)) (acc : ℚ × Bool),
    (l.foldl pollStep acc).2 = (acc.2 || l.any activeEl)
  | [], acc => by simp
  | none :: rest, acc => by
      simpa [pollStep, activeEl] using pollStep_foldl_snd rest acc
  | some el :: rest, acc => by
      by_cases h : el.currentTime = 0
      · have h1 : pollStep acc (some el) = acc := by simp [pollStep, h]
        rw [List.foldl_cons, h1, pollStep_foldl_snd rest acc]
        simp [activeEl, h]
      · have h1 : pollStep acc (some el) = (max acc.1 el.currentTime, true) := by
          simp [pollStep, h]
        rw [List.foldl_cons, h1, pollStep_foldl_snd rest _]
        simp [activeEl, h]

/-- The state used by the C4 counterexample: playing, `currentTime = 5`,
one video track whose element sits at time 0 (a freshly loaded element). -/
def cexPlaybackState : TimelineState :=
  { sampleState [sampleVideoTrack "v1" (sampleObject 1 (some (sampleElement 0 (some 10)))) 10] []
      with isPlaying := true, currentTime := 5 }

/-- C4 counterexample: when the only element reports time 0, the truthiness
test `if (element?.currentTime)` skips it, `hasActiveMedia` stays false and
the frame update does NOT take the maximum of the live element times (which
is 0) as the authoritative `currentTime` — the stale value 5 survives. -/
theorem updatePlayback_all_zero_cex :
    elementTimes cexPlaybackState = [0]
    ∧ (elementTimes cexPlaybackState).foldl max 0 = 0
    ∧ (updatePlayback cexPlaybackState false).state.currentTime = 5
    ∧ (updatePlayback cexPlaybackState false).state.currentTime
        ≠ (elementTimes cexPlaybackState).foldl max 0 := by
  refine ⟨?_, ?_, ?_, ?_⟩ <;>
    simp [cexPlaybackState, elementTimes, trackElements, updatePlayback, pollStep,
      sampleState, sampleVideoTrack, sampleObject, sampleElement] <;>
    norm_num

/-- C4 amended: while playing, the frame update takes the maximum of the
tracks' live element times as the authoritative `currentTime` PROVIDED at
least one element reports a nonzero time (elements at time 0, or absent,
are skipped by the truthiness test, and an all-zero poll leaves
`currentTime` unchanged); and whenever that maximum reaches `duration`,
playing is never left true: the state flips to stopped, no further frame is
requested, and every track's media element receives `pause()`. -/
theorem updatePlayback_max_authoritative (s : TimelineState) (hs : Bool)
    (h0 : ∀ q ∈ elementTimes s, 0 ≤ q) :
    ((∃ q ∈ elementTimes s, q ≠ 0) →
        (updatePlayback s hs).state.currentTime = (elementTimes s).foldl max 0)
    ∧ ((elementTimes s).foldl max 0 ≥ s.duration →
        (updatePlayback s hs).state.isPlaying = false
        ∧ (updatePlayback s hs).continues = false
        ∧ (∀ t ∈ (updatePlayback s hs).state.videoTracks, ∀ el,
            t.mediaObject.mediaElement = some el → el.paused = true)
        ∧ (∀ t ∈ (updatePlayback s hs).state.audioTracks, ∀ el,
            t.mediaObject.mediaElement = some el → el.paused = true)
        ∧ (∀ t ∈ s.videoTracks, t.mediaObject.mediaElement.isSome →
            (t.id, MediaCall.pause) ∈ (updatePlayback s hs).calls)
        ∧ (∀ t ∈ s.audioTracks, t.mediaObject.mediaElement.isSome →
            (t.id, MediaCall.pause) ∈ (updatePlayback s hs).calls)) := by
  have hmax : ((trackElements s).foldl pollStep (0, false)).1
      = (elementTimes s).foldl max 0 :=
    pollStep_foldl_fst (trackElements s) (0, false) h0 le_rfl
  have hflag : ((trackElements s).foldl pollStep (0, false)).2 = true
      ↔ ∃ q ∈ elementTimes s, q ≠ 0 := by
    rw [pollStep_foldl_snd (trackElements s) (0, false)]
    simp only [Bool.false_or, List.any_eq_true]
    constructor
    · rintro ⟨e, he, hae⟩
      cases e with
      | none => simp [activeEl] at hae
      | some el =>
          refine ⟨el.currentTime, ?_, by simpa [activeEl] using hae⟩
          exact List.mem_filterMap.mpr ⟨some el, he, rfl⟩
    · rintro ⟨q, hq, hq0⟩
      rcases List.mem_filterMap.mp hq with ⟨e, he, hmap⟩
      cases e with
      | none => simp at hmap
      | some el =>
          refine ⟨some el, he, ?_⟩
          simp at hmap
          simp [activeEl, hmap, hq0]
  constructor
  · intro hex
    have hf : ((trackElements s).foldl pollStep (0, false)).2 = true := hflag.mpr hex
    simp only [updatePlayback, hf, hmax]
    split_ifs <;> rfl
  · intro hend
    have hend' : ((trackElements s).foldl pollStep (0, false)).1 ≥ s.duration := by
      rw [hmax]; exact hend
    refine ⟨?_, ?_, ?_, ?_, ?_, ?_⟩
    · simp only [updatePlayback, hend', if_pos]
    · simp only [updatePlayback, hend', if_pos]
    · intro t ht el hel
      simp only [updatePlayback, hend', if_pos] at ht
      have ht' : t ∈ s.videoTracks.map (callVideoTrack .pause) := by
        revert ht
        split_ifs <;> exact id
      simp only [List.mem_map] at ht'
      obtain ⟨t0, -, rfl⟩ := ht'
      cases h0' : t0.mediaObject.mediaElement with
      | none => simp [callVideoTrack, h0'] at hel
      | some el0 =>
          simp [callVideoTrack, h0'] at hel
          rw [← hel]
          simp [applyCall]
    · intro t ht el hel
      simp only [updatePlayback, hend', if_pos] at ht
      have ht' : t ∈ s.audioTracks.map (callAudioTrack .pause) := by
        revert ht
        split_ifs <;> exact id
      simp only [List.mem_map] at ht'
      obtain ⟨t0, -, rfl⟩ := ht'
      cases h0' : t0.mediaObject.mediaElement with
      | none => simp [callAudioTrack, h0'] at hel
      | some el0 =>
          simp [callAudioTrack, h0'] at hel
          rw [← hel]
          simp [applyCall]
    · intro t ht hel
      simp only [updatePlayback, hend', if_pos]
      have : (t.id, MediaCall.pause) ∈ videoCallLog .pause s.videoTracks :=
        List.mem_filterMap.mpr ⟨t, ht, by simp [hel]⟩
      split_ifs <;> simp only [List.mem_append] <;> exact Or.inl this
    · intro t ht hel
      simp only [updatePlayback, hend', if_pos]
      have : (t.id, MediaCall.pause) ∈ audioCallLog .pause s.audioTracks :=
        List.mem_filterMap.mpr ⟨t, ht, by simp [hel]⟩
      split_ifs <;> simp only [List.mem_append] <;> exact Or.inr this

/-- C4 amended, witnessed at a concrete state: one track whose element sits
at time 12 on a 10-second timeline; the update adopts 12 and stops, pausing
the element. -/
theorem updatePlayback_max_authoritative_witness :
    (∀ q ∈ elementTimes (sampleState
        [sampleVideoTrack "v2" (sampleObject 3 (some (sampleElement 12 (some 10)))) 10] []),
      0 ≤ q)
    ∧ (updatePlayback (sampleState
        [sampleVideoTrack "v2" (sampleObject 3 (some (sampleElement 12 (some 10)))) 10] [])
        false).state.currentTime
      = (elementTimes (sampleState
          [sampleVideoTrack "v2" (sampleObject 3 (some (sampleElement 12 (some 10)))) 10] [])).foldl
          max 0
    ∧ (updatePlayback (sampleState
        [sampleVideoTrack "v2" (sampleObject 3 (some (sampleElement 12 (some 10)))) 10] [])
        false).state.isPlaying = false := by
  have hnn : ∀ q ∈ elementTimes (sampleState
      [sampleVideoTrack "v2" (sampleObject 3 (some (sampleElement 12 (some 10)))) 10] []),
      0 ≤ q := by
    simp [elementTimes, trackElements, sampleState, sampleVideoTrack, sampleObject,
      sampleElement]
  have h := updatePlayback_max_authoritative (sampleState
    [sampleVideoTrack "v2" (sampleObject 3 (some (sampleElement 12 (some 10)))) 10] [])
    false hnn
  refine ⟨hnn, h.1 ?_, (h.2 ?_).1⟩
  · refine ⟨12, ?_, by norm_num⟩
    simp [elementTimes, trackElements, sampleState, sampleVideoTrack, sampleObject,
      sampleElement]
  · simp [elementTimes, trackElements, sampleState, sampleVideoTrack, sampleObject,
      sampleElement]
    norm_num

/-! ## C5: video thumbnail counts and capture times -/

/-- C5: for every video track with a media element and positive duration, a
successful generation pass produces exactly `max(5, ceil(duration / 2))`
thumbnails, the i-th captured at `(i / (count - 1)) * duration`; for
duration 10 this is 5 thumbnails at 0, 2.5, 5, 7.5, 10. -/
theorem generateVideoThumbnails_count_times (t : VideoTrack) (el : MediaElement)
    (hel : t.mediaObject.mediaElement = some el) (hd : 0 < t.duration) :
    (generateVideoThumbnails false t true).thumbnails.length
      = max 5 (Int.toNat ⌈t.duration / 2⌉)
    ∧ (∀ i, i < numThumbnails t.duration →
        (generateVideoThumbnails false t true).thumbnails[i]?
          = some (((i : ℚ) / ((numThumbnails t.duration : ℚ) - 1)) * t.duration))
    ∧ numThumbnails 10 = 5
    ∧ thumbnailTimes 10 = [0, 5/2, 5, 15/2, 10] := by
  have hgen : generateVideoThumbnails false t true
      = { t with thumbnails := thumbnailTimes t.duration } := by
    simp [generateVideoThumbnails, hel]
  refine ⟨?_, ?_, ?_, ?_⟩
  · rw [hgen]
    show (thumbnailTimes t.duration).length = _
    rw [thumbnailTimes, List.length_map, List.length_range]
    rfl
  · intro i hi
    rw [hgen]
    show (thumbnailTimes t.duration)[i]? = _
    rw [thumbnailTimes, List.getElem?_map, List.getElem?_range hi, Option.map_some']
  · norm_num [numThumbnails]
  · norm_num [thumbnailTimes, numThumbnails, List.range_succ]

/-- C5 witnessed at a concrete track of duration 10: 5 thumbnails, the
second one at time 2.5. -/
theorem generateVideoThumbnails_count_times_witness :
    0 < (sampleVideoTrack "v5" (sampleObject 7 (some (sampleElement 0 (some 10)))) 10).duration
    ∧ (generateVideoThumbnails false
        (sampleVideoTrack "v5" (sampleObject 7 (some (sampleElement 0 (some 10)))) 10)
        true).thumbnails.length
      = max 5 (Int.toNat ⌈(sampleVideoTrack "v5"
          (sampleObject 7 (some (sampleElement 0 (some 10)))) 10).duration / 2⌉) := by
  have hd : 0 < (sampleVideoTrack "v5"
      (sampleObject 7 (some (sampleElement 0 (some 10)))) 10).duration := by
    norm_num [sampleVideoTrack]
  exact ⟨hd, (generateVideoThumbnails_count_times _ (sampleElement 0 (some 10))
    (by simp [sampleVideoTrack, sampleObject]) hd).1⟩

/-! ## C6: zoom clamping and convergence -/

/-- One zoom-in step starting below the cap composes multiplicatively:
`zoomInScale (min a 200) = min (a * 3/2) 200`. -/
theorem zoomInScale_min (a : ℚ) : zoomInScale (min a 200) = min (a * (3 / 2)) 200 := by
  unfold zoomInScale
  rw [min_mul_of_nonneg _ _ (by norm_num : (0:ℚ) ≤ 3 / 2)]
  rw [min_assoc]
  have h : min ((200:ℚ) * (3 / 2)) 200 = 200 := by
    rw [min_eq_right]
    norm_num
  rw [h]

/-- Iterating zoom-in n+1 times from scale q yields
`min (q * (3/2)^(n+1)) 200`. -/
theorem zoomInScale_iterate (n : ℕ) (q : ℚ) :
    zoomInScale^[n + 1] q = min (q * (3 / 2) ^ (n + 1)) 200 := by
  induction n with
  | zero => simp [zoomInScale]
  | succ n ih =>
      rw [Function.iterate_succ_apply', ih, zoomInScale_min, mul_assoc, ← pow_succ]

/-- The state used by the C6 counterexample: overall duration 3 seconds. -/
def cexZoomState : TimelineState :=
  { sampleState [] [] with duration := 3 }

/-- C6 counterexample: `zoomToFit` on a 3-second timeline in a 1000px-wide
scroll area sets the scale to `max(5, 960/3) = 320`, above the 200 px/sec
cap — the "fit" operation clamps only from below, so the zoom scale is NOT
always within `[5, 200]` after any zoom operation. -/
theorem zoomToFit_exceeds_max_cex :
    (zoomToFit cexZoomState true 1000).scale = 320
    ∧ ¬ (zoomToFit cexZoomState true 1000).scale ≤ 200
    ∧ (zoomToFit cexZoomState true 1000).scrollLeft = 0 := by
  have h : (zoomToFit cexZoomState true 1000).scale = 320 := by
    simp only [zoomToFit, cexZoomState, sampleState]
    norm_num [max_def]
  refine ⟨h, ?_, ?_⟩
  · rw [h]; norm_num
  · simp only [zoomToFit, cexZoomState, sampleState]
    norm_num

/-- C6 amended: `zoomIn` and `zoomOut` keep the scale within `[5, 200]`
(starting from any scale in range), `zoomIn` never exceeds 200 from any
start, and from any scale ≥ 5 ten zoom-in steps converge to exactly 200;
but `zoomToFit` only clamps from below: it sets the scale to
`max(5, (clientWidth - 40) / duration)` — which can exceed 200 — and
resets the scroll position to 0. -/
theorem zoom_clamped_and_converges :
    (∀ q : ℚ, 5 ≤ q → q ≤ 200 →
        5 ≤ zoomInScale q ∧ zoomInScale q ≤ 200
        ∧ 5 ≤ zoomOutScale q ∧ zoomOutScale q ≤ 200)
    ∧ (∀ q : ℚ, zoomInScale q ≤ 200)
    ∧ (∀ q : ℚ, 5 ≤ q → zoomInScale^[10] q = 200)
    ∧ (∀ (s : TimelineState) (cw : ℚ), 0 < s.duration →
        (zoomToFit s true cw).scale = max 5 ((cw - 40) / s.duration)
        ∧ 5 ≤ (zoomToFit s true cw).scale
        ∧ (zoomToFit s true cw).scrollLeft = 0) := by
  refine ⟨?_, ?_, ?_, ?_⟩
  · intro q h5 h200
    refine ⟨?_, min_le_right _ _, le_max_right _ _, ?_⟩
    · apply le_min _ (by norm_num)
      linarith
    · apply max_le _ (by norm_num)
      rw [div_le_iff₀ (by norm_num : (0:ℚ) < 3 / 2)]
      linarith
  · intro q
    exact min_le_right _ _
  · intro q h5
    have h10 : (10:ℕ) = 9 + 1 := rfl
    rw [h10, zoomInScale_iterate 9 q]
    apply min_eq_right
    have hpow : ((3:ℚ) / 2) ^ (9 + 1) = 59049 / 1024 := by norm_num
    rw [hpow]
    linarith
  · intro s cw hd
    have hnd : ¬ s.duration ≤ 0 := not_le.mpr hd
    refine ⟨?_, ?_, ?_⟩ <;> simp [zoomToFit, hnd]

/-- C6 amended, witnessed at concrete scales: from 20 px/sec a zoom-in
stays in range and ten zoom-ins reach exactly 200. -/
theorem zoom_clamped_and_converges_witness :
    5 ≤ (20:ℚ) ∧ (20:ℚ) ≤ 200 ∧ 5 ≤ zoomInScale 20 ∧ zoomInScale 20 ≤ 200
    ∧ zoomInScale^[10] 20 = 200 :=
  ⟨by norm_num, by norm_num,
   (zoom_clamped_and_converges.1 20 (by norm_num) (by norm_num)).1,
   (zoom_clamped_and_converges.1 20 (by norm_num) (by norm_num)).2.1,
   zoom_clamped_and_converges.2.2.1 20 (by norm_num)⟩

/-! ## C7: NaN durations are normalized to 0 -/

/-- Every track produced by the video scan carries the normalized duration
of some scanned object's media element. -/
theorem scanVideoTracksFrom_duration (freshId : ℕ → String) (prev : List VideoTrack) :
    ∀ (objs : List MediaObject) (k : ℕ), ∀ t ∈ scanVideoTracksFrom freshId prev objs k,
      ∃ obj ∈ objs, ∃ el, obj.mediaElement = some el
        ∧ t.duration = normalizeDuration el.duration
  | [], _, t, ht => by simp [scanVideoTracksFrom] at ht
  | obj :: rest, k, t, ht => by
      cases hoe : obj.mediaElement with
      | none =>
          rw [scanVideoTracksFrom, hoe] at ht
          obtain ⟨o, ho, el, hel, hdur⟩ :=
            scanVideoTracksFrom_duration freshId prev rest (k + 1) t ht
          exact ⟨o, List.mem_cons_of_mem obj ho, el, hel, hdur⟩
      | some el =>
          rw [scanVideoTracksFrom, hoe] at ht
          rcases List.mem_cons.mp ht with h | h
          · refine ⟨obj, List.mem_cons_self obj rest, el, hoe, ?_⟩
            rw [h]
            cases hf : prev.find? (fun t => matchesVideo obj t) <;> simp [hf]
          · obtain ⟨o, ho, el', hel', hdur⟩ :=
              scanVideoTracksFrom_duration freshId prev rest (k + 1) t h
            exact ⟨o, List.mem_cons_of_mem obj ho, el', hel', hdur⟩

/-- Every track produced by the audio scan carries the normalized duration
of some scanned object's media element. -/
theorem scanAudioTracksFrom_duration (freshId : ℕ → String) (prev : List AudioTrack) :
    ∀ (objs : List MediaObject) (k : ℕ), ∀ t ∈ scanAudioTracksFrom freshId prev objs k,
      ∃ obj ∈ objs, ∃ el, obj.mediaElement = some el
        ∧ t.duration = normalizeDuration el.duration
  | [], _, t, ht => by simp [scanAudioTracksFrom] at ht
  | obj :: rest, k, t, ht => by
      cases hoe : obj.mediaElement with
      | none =>
          rw [scanAudioTracksFrom, hoe] at ht
          obtain ⟨o, ho, el, hel, hdur⟩ :=
            scanAudioTracksFrom_duration freshId prev rest (k + 1) t ht
          exact ⟨o, List.mem_cons_of_mem obj ho, el, hel, hdur⟩
      | some el =>
          rw [scanAudioTracksFrom, hoe] at ht
          rcases List.mem_cons.mp ht with h | h
          · refine ⟨obj, List.mem_cons_self obj rest, el, hoe, ?_⟩
            rw [h]
            cases hf : prev.find? (fun t => matchesAudio obj t) <;> simp [hf]
          · obtain ⟨o, ho, el', hel', hdur⟩ :=
              scanAudioTracksFrom_duration freshId prev rest (k + 1) t h
            exact ⟨o, List.mem_cons_of_mem obj ho, el', hel', hdur⟩

/-- C7: the scanner stores `normalizeDuration` of the element's raw
duration on every track it creates or updates, `normalizeDuration` maps the
browser's NaN (modelled by `none`) to 0, and feeding an extra 0 into the
max-duration computation never changes the maximum of a nonempty list of
nonnegative durations — so a NaN duration cannot pollute it. -/
theorem scanner_normalizes_nan (freshVid freshAud : ℕ → String)
    (prevV : List VideoTrack) (prevA : List AudioTrack)
    (videoObjs audioObjs : List MediaObject) :
    normalizeDuration none = 0
    ∧ (∀ t ∈ scanVideoTracks freshVid prevV videoObjs, ∃ obj ∈ videoObjs, ∃ el,
        obj.mediaElement = some el ∧ t.duration = normalizeDuration el.duration)
    ∧ (∀ t ∈ scanAudioTracks freshAud prevA audioObjs, ∃ obj ∈ audioObjs, ∃ el,
        obj.mediaElement = some el ∧ t.duration = normalizeDuration el.duration)
    ∧ (∀ l : List ℚ, (∀ x ∈ l, 0 ≤ x) → l ≠ [] → listMax (0 :: l) = listMax l) := by
  refine ⟨rfl, ?_, ?_, ?_⟩
  · exact scanVideoTracksFrom_duration freshVid prevV videoObjs 0
  · exact scanAudioTracksFrom_duration freshAud prevA audioObjs 0
  · intro l h0 hne
    cases l with
    | nil => exact absurd rfl hne
    | cons x xs =>
        show (x :: xs).foldl max 0 = xs.foldl max x
        rw [List.foldl_cons, max_eq_right (h0 x (List.mem_cons_self x xs))]

/-- C7 witnessed at a concrete scan: an object whose element reports NaN
duration yields a track of duration 0. -/
theorem scanner_normalizes_nan_witness :
    ((scanVideoTracks (fun _ => "w7") [] [sampleObject 9 (some (sampleElement 0 none))]).map
      VideoTrack.duration) = [0]
    ∧ (∀ t ∈ scanVideoTracks (fun _ => "w7") [] [sampleObject 9 (some (sampleElement 0 none))],
        ∃ obj ∈ [sampleObject 9 (some (sampleElement 0 none))], ∃ el,
          obj.mediaElement = some el ∧ t.duration = normalizeDuration el.duration) := by
  constructor
  · simp [scanVideoTracks, scanVideoTracksFrom, sampleObject, sampleElement,
      normalizeDuration]
  · exact (scanner_normalizes_nan (fun _ => "w7") (fun _ => "w7a") [] []
      [sampleObject 9 (some (sampleElement 0 none))] []).2.1

/-! ## C8: preview-generation failure handling -/

/-- The video track used by the C8 counterexample: duration 10, element
present, no thumbnails yet. -/
def cexVideoTrackFail : VideoTrack :=
  sampleVideoTrack "v8" (sampleObject 4 (some (sampleElement 0 (some 10)))) 10

/-- C8 counterexample: a video track of positive duration whose generation
pass fails (any thrown seek/draw error) keeps its empty thumbnail list —
there is no fallback on the video path, so generation CAN leave a video
track's preview collection empty. -/
theorem video_thumbnails_error_empty_cex :
    cexVideoTrackFail.duration = 10
    ∧ cexVideoTrackFail.thumbnails = []
    ∧ (generateVideoThumbnails false cexVideoTrackFail false).thumbnails = [] := by
  refine ⟨rfl, rfl, ?_⟩
  simp [generateVideoThumbnails, cexVideoTrackFail, sampleVideoTrack, sampleObject,
    sampleElement]

/-- C8 amended: for an audio track with a media element, a failed
generation pass (no source file, or a decode error) substitutes the
stylized fallback, and the resulting waveform always has
`max(150, ceil(duration * 15))` bars, never zero — but a failed VIDEO pass
leaves the track's previous thumbnails untouched (no fallback), so only
audio tracks are guaranteed a nonempty preview after generation. -/
theorem audio_fallback_nonempty (t : AudioTrack) (el : MediaElement) (decodeOk : Bool)
    (hel : t.mediaObject.mediaElement = some el) :
    ((t.mediaObject.hasFile = false ∨ decodeOk = false) →
        generateAudioWaveform false t decodeOk = createStylizedWaveform t)
    ∧ (generateAudioWaveform false t decodeOk).waveform.length
        = numWaveformSamples t.duration
    ∧ (generateAudioWaveform false t decodeOk).waveform ≠ []
    ∧ (∀ v : VideoTrack, (generateVideoThumbnails false v false).thumbnails = v.thumbnails) := by
  have hlen : 0 < numWaveformSamples t.duration :=
    lt_of_lt_of_le (by norm_num) (le_max_left 150 (Int.toNat ⌈t.duration * 15⌉))
  have hsty : (createStylizedWaveform t).waveform.length = numWaveformSamples t.duration := by
    simp [createStylizedWaveform, stylizedWaveform]
  have hgen : generateAudioWaveform false t decodeOk = createStylizedWaveform t
      ∨ (generateAudioWaveform false t decodeOk).waveform
          = List.range (numWaveformSamples t.duration) := by
    cases hf : t.mediaObject.hasFile with
    | false => exact Or.inl (by simp [generateAudioWaveform, hel, hf])
    | true =>
        cases hok : decodeOk with
        | false => exact Or.inl (by simp [generateAudioWaveform, hel, hf])
        | true => exact Or.inr (by simp [generateAudioWaveform, hel, hf])
  refine ⟨?_, ?_, ?_, ?_⟩
  · rintro (hf | hok)
    · simp [generateAudioWaveform, hel, hf]
    · cases hf : t.mediaObject.hasFile with
      | false => simp [generateAudioWaveform, hel, hf]
      | true => simp [generateAudioWaveform, hel, hf, hok]
  · rcases hgen with h | h
    · rw [h, hsty]
    · rw [h, List.length_range]
  · apply List.ne_nil_of_length_pos
    rcases hgen with h | h
    · rw [h, hsty]; exact hlen
    · rw [h, List.length_range]; exact hlen
  · intro v
    cases hv : v.mediaObject.mediaElement <;>
      simp [generateVideoThumbnails, hv]

/-- The audio track used by the C8 witness: element present but no source
file handle. -/
def witAudioTrackNoFile : AudioTrack :=
  sampleAudioTrack "a8"
    { sampleObject 6 (some (sampleElement 0 (some 10))) with hasFile := false } 10

/-- C8 amended, witnessed at a concrete audio track without a file handle:
the stylized fallback is substituted and the waveform is nonempty. -/
theorem audio_fallback_nonempty_witness :
    witAudioTrackNoFile.mediaObject.hasFile = false
    ∧ generateAudioWaveform false witAudioTrackNoFile false
        = createStylizedWaveform witAudioTrackNoFile
    ∧ (generateAudioWaveform false witAudioTrackNoFile false).waveform ≠ [] := by
  have hf : witAudioTrackNoFile.mediaObject.hasFile = false := rfl
  have h := audio_fallback_nonempty witAudioTrackNoFile (sampleElement 0 (some 10)) false rfl
  exact ⟨hf, h.1 (Or.inl hf), h.2.2.1⟩

/-! ## C9: lock toggling -/

/-- A video track whose object flags agree with its lock state
(`selectable = evented = !isLocked`), as produced by track creation
(`isLocked = false`, fabric defaults `selectable = evented = true`). -/
def lockConsistentV (t : VideoTrack) : Prop :=
  t.mediaObject.fabric.selectable = !t.isLocked
    ∧ t.mediaObject.fabric.evented = !t.isLocked

/-- An audio track whose object flags agree with its lock state. -/
def lockConsistentA (t : AudioTrack) : Prop :=
  t.mediaObject.fabric.selectable = !t.isLocked
    ∧ t.mediaObject.fabric.evented = !t.isLocked

/-- `toggleTrackLock` when the id is found among the video tracks. -/
theorem toggleTrackLock_video_eq (s : TimelineState) (h : Bool) (trackId : String)
    (hfv : ((s.videoTracks.find? fun t => t.id == trackId)).isSome = true) :
    toggleTrackLock s h trackId
      = { s with videoTracks :=
          s.videoTracks.map fun t => if t.id == trackId then lockVideoTrack h t else t } := by
  rw [toggleTrackLock, if_pos hfv]

/-- `toggleTrackLock` when the id is found only among the audio tracks. -/
theorem toggleTrackLock_audio_eq (s : TimelineState) (h : Bool) (trackId : String)
    (hfv : ¬ ((s.videoTracks.find? fun t => t.id == trackId)).isSome = true)
    (hfa : ((s.audioTracks.find? fun t => t.id == trackId)).isSome = true) :
    toggleTrackLock s h trackId
      = { s with audioTracks :=
          s.audioTracks.map fun t => if t.id == trackId then lockAudioTrack h t else t } := by
  rw [toggleTrackLock, if_neg hfv, if_pos hfa]

/-- `toggleTrackLock` when the id is found nowhere. -/
theorem toggleTrackLock_noop (s : TimelineState) (h : Bool) (trackId : String)
    (hfv : ¬ ((s.videoTracks.find? fun t => t.id == trackId)).isSome = true)
    (hfa : ¬ ((s.audioTracks.find? fun t => t.id == trackId)).isSome = true) :
    toggleTrackLock s h trackId = s := by
  rw [toggleTrackLock, if_neg hfv, if_neg hfa]

/-- Mapping a conditional per-element toggle twice over a list is the
identity when the toggle is an involution on the matching elements and
preserves the selection predicate. -/
theorem map_toggle_toggle_eq_self {α : Type} (g : α → α) (p : α → Bool) (l : List α)
    (hg : ∀ a, p (g a) = p a) (hgg : ∀ a ∈ l, p a = true → g (g a) = a) :
    ((l.map fun a => if p a then g a else a).map fun a => if p a then g a else a) = l := by
  rw [List.map_map]
  conv_rhs => rw [← List.map_id l]
  apply List.map_congr_left
  intro a hal
  by_cases h : p a
  · simp [Function.comp, h, hg, hgg a hal h]
  · simp [Function.comp, h]

/-- Mapping the conditional toggle preserves whether `find?` succeeds, as
long as the toggle preserves the predicate. -/
theorem find?_isSome_map_toggle {α : Type} (g : α → α) (p : α → Bool) (l : List α)
    (hg : ∀ a, p (g a) = p a) :
    (((l.map fun a => if p a then g a else a).find? p)).isSome = ((l.find? p)).isSome := by
  rw [List.find?_map]
  have hp : (p ∘ fun a => if p a then g a else a) = p := by
    funext a
    by_cases h : p a <;> simp [Function.comp, h, hg]
  rw [hp]
  cases l.find? p <;> simp

/-- The state used by the C9 counterexample: one video track, fabric flags
at their defaults (nothing movement/rotation/scaling-locked). -/
def cexLockState : TimelineState :=
  sampleState [sampleVideoTrack "v9" (sampleObject 11 (some (sampleElement 0 (some 10)))) 10] []

/-- C9 counterexample: toggling the track lock flips the track's
`isLocked` and clears the object's `selectable`, but the object's
`lockMovementX` (and the other movement/rotation/scaling lock flags) stays
`false` — `toggleTrackLock` does NOT invert those flags; it writes
`selectable`/`evented` instead. -/
theorem toggleTrackLock_flags_cex :
    (cexLockState.videoTracks.map fun t => t.mediaObject.fabric.lockMovementX) = [false]
    ∧ ((toggleTrackLock cexLockState true "v9").videoTracks.map
        fun t => t.mediaObject.fabric.lockMovementX) = [false]
    ∧ ((toggleTrackLock cexLockState true "v9").videoTracks.map VideoTrack.isLocked) = [true]
    ∧ ((toggleTrackLock cexLockState true "v9").videoTracks.map
        fun t => t.mediaObject.fabric.selectable) = [false] := by
  refine ⟨?_, ?_, ?_, ?_⟩ <;>
    simp [toggleTrackLock, cexLockState, sampleState, sampleVideoTrack, sampleObject,
      sampleFabric, lockVideoTrack]

/-- C9 amended: the shape editor's `toggleLock` inverts the
movement/rotation/scaling lock flags and is an involution; the timeline's
`toggleTrackLock` instead flips the track's `isLocked` and writes
`selectable`/`evented` (leaving the movement/rotation/scaling flags
unchanged), and toggling the same track's lock twice restores the state
exactly when every matching track's object flags agreed with its lock
state beforehand (`selectable = evented = !isLocked`, which holds for
freshly created tracks on default fabric objects). -/
theorem toggleTrackLock_involution :
    (∀ o : FabricProps, toggleLock (toggleLock o) = o)
    ∧ (∀ (h : Bool) (t : VideoTrack),
        (lockVideoTrack h t).isLocked = !t.isLocked
        ∧ (lockVideoTrack h t).mediaObject.fabric.lockMovementX
            = t.mediaObject.fabric.lockMovementX
        ∧ (lockVideoTrack h t).mediaObject.fabric.lockMovementY
            = t.mediaObject.fabric.lockMovementY
        ∧ (lockVideoTrack h t).mediaObject.fabric.lockRotation
            = t.mediaObject.fabric.lockRotation
        ∧ (lockVideoTrack h t).mediaObject.fabric.lockScalingX
            = t.mediaObject.fabric.lockScalingX
        ∧ (lockVideoTrack h t).mediaObject.fabric.lockScalingY
            = t.mediaObject.fabric.lockScalingY)
    ∧ (∀ t : VideoTrack, lockConsistentV t → lockVideoTrack true (lockVideoTrack true t) = t)
    ∧ (∀ t : AudioTrack, lockConsistentA t → lockAudioTrack true (lockAudioTrack true t) = t)
    ∧ (∀ (s : TimelineState) (trackId : String),
        (∀ t ∈ s.videoTracks, t.id = trackId → lockConsistentV t) →
        (∀ t ∈ s.audioTracks, t.id = trackId → lockConsistentA t) →
        toggleTrackLock (toggleTrackLock s true trackId) true trackId = s) := by
  have hVinv : ∀ t : VideoTrack, lockConsistentV t →
      lockVideoTrack true (lockVideoTrack true t) = t := by
    intro t hc
    obtain ⟨tid, mo, nm, dur, vis, lk, th⟩ := t
    obtain ⟨oid, oref, onm, oel, ofile, ofab⟩ := mo
    obtain ⟨sel, ev, lmx, lmy, lr, lsx, lsy, vsb⟩ := ofab
    obtain ⟨h1, h2⟩ := hc
    simp_all [lockConsistentV, lockVideoTrack]
  have hAinv : ∀ t : AudioTrack, lockConsistentA t →
      lockAudioTrack true (lockAudioTrack true t) = t := by
    intro t hc
    obtain ⟨tid, mo, nm, dur, vis, lk, mu, wf⟩ := t
    obtain ⟨oid, oref, onm, oel, ofile, ofab⟩ := mo
    obtain ⟨sel, ev, lmx, lmy, lr, lsx, lsy, vsb⟩ := ofab
    obtain ⟨h1, h2⟩ := hc
    simp_all [lockConsistentA, lockAudioTrack]
  refine ⟨?_, ?_, hVinv, hAinv, ?_⟩
  · intro o
    simp [toggleLock]
  · intro h t
    cases h <;> simp [lockVideoTrack]
  · intro s trackId hv ha
    have hgv : ∀ t : VideoTrack,
        ((lockVideoTrack true t).id == trackId) = (t.id == trackId) := by
      intro t
      have : (lockVideoTrack true t).id = t.id := by simp [lockVideoTrack]
      rw [this]
    have hga : ∀ t : AudioTrack,
        ((lockAudioTrack true t).id == trackId) = (t.id == trackId) := by
      intro t
      have : (lockAudioTrack true t).id = t.id := by simp [lockAudioTrack]
      rw [this]
    by_cases hfv : ((s.videoTracks.find? fun t => t.id == trackId)).isSome = true
    · have h1 := toggleTrackLock_video_eq s true trackId hfv
      have hfv2 : (((s.videoTracks.map fun t =>
          if t.id == trackId then lockVideoTrack true t else t).find?
            fun t => t.id == trackId)).isSome = true := by
        rw [find?_isSome_map_toggle (lockVideoTrack true) (fun t => t.id == trackId)
          s.videoTracks hgv]
        exact hfv
      have h2 := toggleTrackLock_video_eq
        { s with videoTracks :=
            s.videoTracks.map fun t => if t.id == trackId then lockVideoTrack true t else t }
        true trackId hfv2
      rw [h1, h2]
      rw [map_toggle_toggle_eq_self (lockVideoTrack true) (fun t => t.id == trackId)
        s.videoTracks hgv
        (fun t ht hp => hVinv t (hv t ht (by simpa using hp)))]
    · by_cases hfa : ((s.audioTracks.find? fun t => t.id == trackId)).isSome = true
      · have h1 := toggleTrackLock_audio_eq s true trackId hfv hfa
        have hfa2 : (((s.audioTracks.map fun t =>
            if t.id == trackId then lockAudioTrack true t else t).find?
              fun t => t.id == trackId)).isSome = true := by
          rw [find?_isSome_map_toggle (lockAudioTrack true) (fun t => t.id == trackId)
            s.audioTracks hga]
          exact hfa
        have h2 := toggleTrackLock_audio_eq
          { s with audioTracks :=
              s.audioTracks.map fun t => if t.id == trackId then lockAudioTrack true t else t }
          true trackId hfv hfa2
        rw [h1, h2]
        rw [map_toggle_toggle_eq_self (lockAudioTrack true) (fun t => t.id == trackId)
          s.audioTracks hga
          (fun t ht hp => hAinv t (ha t ht (by simpa using hp)))]
      · rw [toggleTrackLock_noop s true trackId hfv hfa,
          toggleTrackLock_noop s true trackId hfv hfa]

/-- C9 amended, witnessed at a concrete state: double-toggling the lock of
the single (consistent) track of `cexLockState` restores the state, and
`toggleLock` double-applied to the default fabric flags restores them. -/
theorem toggleTrackLock_involution_witness :
    toggleLock (toggleLock sampleFabric) = sampleFabric
    ∧ toggleTrackLock (toggleTrackLock cexLockState true "v9") true "v9" = cexLockState := by
  constructor
  · exact toggleTrackLock_involution.1 sampleFabric
  · apply toggleTrackLock_involution.2.2.2.2 cexLockState "v9"
    · intro t ht hid
      simp only [cexLockState, sampleState, List.mem_singleton] at ht
      subst ht
      constructor <;> rfl
    · intro t ht hid
      simp [cexLockState, sampleState] at ht

/-! ## C10: the canvas store history invariant -/

/-- C10: the history invariant `-1 ≤ currentHistoryIndex ≤ length - 1`
holds at store creation and is preserved by every action; `addToHistory`
truncates past the index, appends, and leaves the index at the last entry;
`undo` decrements only when the index is positive; `redo` increments only
below `length - 1`; `cleanup` resets to the empty history and index -1. -/
theorem canvasStore_history_invariant (σ : Type) (s : CanvasStoreState σ) (snap : σ)
    (id ty : String) (sel : Option String) :
    historyInv (createCanvasStore σ)
    ∧ (historyInv s →
        historyInv (addToHistory s snap)
        ∧ (addToHistory s snap).history
            = s.history.take (s.currentHistoryIndex + 1).toNat ++ [snap]
        ∧ (addToHistory s snap).currentHistoryIndex
            = ((addToHistory s snap).history.length : ℤ) - 1)
    ∧ (historyInv s → historyInv (undo s))
    ∧ (0 < s.currentHistoryIndex →
        (undo s).currentHistoryIndex = s.currentHistoryIndex - 1 ∧ (undo s).history = s.history)
    ∧ (¬ 0 < s.currentHistoryIndex → undo s = s)
    ∧ (historyInv s → historyInv (redo s))
    ∧ (s.currentHistoryIndex < (s.history.length : ℤ) - 1 →
        (redo s).currentHistoryIndex = s.currentHistoryIndex + 1 ∧ (redo s).history = s.history)
    ∧ (¬ s.currentHistoryIndex < (s.history.length : ℤ) - 1 → redo s = s)
    ∧ historyInv (cleanup s)
    ∧ (cleanup s).history = [] ∧ (cleanup s).currentHistoryIndex = -1
        ∧ (cleanup s).objects = [] ∧ (cleanup s).selectedObjectId = none
    ∧ (historyInv s →
        historyInv (addObject s id ty)
        ∧ historyInv (removeObject s id)
        ∧ historyInv (setSelectedObject s sel)) := by
  refine ⟨?_, ?_, ?_, ?_, ?_, ?_, ?_, ?_, ?_, ?_, ?_⟩
  · constructor <;> simp [createCanvasStore]
  · rintro ⟨hlo, hhi⟩
    refine ⟨⟨?_, ?_⟩, rfl, ?_⟩
    · simp only [addToHistory]
      omega
    · simp only [addToHistory, List.length_append, List.length_take,
        List.length_singleton]
      omega
    · simp only [addToHistory, List.length_append, List.length_take,
        List.length_singleton]
      omega
  · rintro ⟨hlo, hhi⟩
    unfold undo
    split_ifs with h
    · unfold historyInv
      dsimp only
      omega
    · exact ⟨hlo, hhi⟩
  · intro h
    unfold undo
    rw [if_pos h]
    exact ⟨rfl, rfl⟩
  · intro h
    unfold undo
    rw [if_neg h]
  · rintro ⟨hlo, hhi⟩
    unfold redo
    split_ifs with h
    · unfold historyInv
      dsimp only
      omega
    · exact ⟨hlo, hhi⟩
  · intro h
    unfold redo
    rw [if_pos h]
    exact ⟨rfl, rfl⟩
  · intro h
    unfold redo
    rw [if_neg h]
  · constructor <;> simp [cleanup]
  · exact rfl
  · refine ⟨rfl, rfl, rfl, ?_⟩
    rintro ⟨hlo, hhi⟩
    exact ⟨⟨hlo, hhi⟩, ⟨hlo, hhi⟩, ⟨hlo, hhi⟩⟩

/-- C10 witnessed on a concrete store over ℕ snapshots: creation satisfies
the invariant, and adding one snapshot preserves it with the index at the
last entry. -/
theorem canvasStore_history_invariant_witness :
    historyInv (createCanvasStore ℕ)
    ∧ historyInv (addToHistory (createCanvasStore ℕ) 42)
    ∧ (addToHistory (createCanvasStore ℕ) 42).currentHistoryIndex
        = ((addToHistory (createCanvasStore ℕ) 42).history.length : ℤ) - 1 := by
  have h0 : historyInv (createCanvasStore ℕ) :=
    (canvasStore_history_invariant ℕ (createCanvasStore ℕ) 42 "a" "b" none).1
  have h1 := (canvasStore_history_invariant ℕ (createCanvasStore ℕ) 42 "a" "b" none).2.1 h0
  exact ⟨h0, h1.1, h1.2.2⟩

end BrandCanvas
